import Mathlib

/-!
Verification of the ldap-proxy core (ldap-proxy.go): the rectification
engine (`rectifyData`, `initRectifiers`), the per-frame forwarding logic of
`handleRequest`, the session-setup logic of `handleConn`, and a shallow
model of the BER framing layer the program relies on (described in the
design document §3/§4.1).  Bytes are modelled as `Nat` (each element a Go
`byte`, i.e. `< 256` on real inputs), byte strings as `List Nat`.
-/

/-- Model of Go `strings`/`bytes.Contains`-style prefix test:
`listStartsWith s pat` is true iff `pat` is a prefix of `s`. -/
def listStartsWith : List Nat → List Nat → Bool
  | _, [] => true
  | [], _ :: _ => false
  | a :: as, b :: bs => a == b && listStartsWith as bs

/-- Model of Go `bytes.Contains(b, pat)`: `pat` occurs in `b` as a
contiguous subsequence (the empty pattern is contained in everything,
matching Go's behaviour). -/
def bytesContains : List Nat → List Nat → Bool
  | s, pat =>
    if listStartsWith s pat then true
    else
      match s with
      | [] => false
      | _ :: rest => bytesContains rest pat

/-- The `rectifier` plugin structure of ldap-proxy.go (`req`, `res`,
`sendback`, `desc`). -/
structure rectifier where
  req : List Nat
  res : List Nat
  sendback : Bool
  desc : String
deriving DecidableEq

/-- The loop body of `rectifyData` in ldap-proxy.go, with the accumulators
`rectified` and `sendback` made explicit: for each rule in order, if the
current buffer contains the rule's `req` bytes the buffer becomes the
rule's `res` bytes and the flags are OR-accumulated exactly as in the
source (`rectified || true`, `sendback || singleRectifier.sendback`,
and `|| false` on the non-matching branch). -/
def rectifyGo : List rectifier → List Nat → Bool → Bool → List Nat × Bool × Bool
  | [], b, rectified, sendback => (b, rectified, sendback)
  | r :: rest, b, rectified, sendback =>
    if bytesContains b r.req then
      rectifyGo rest r.res (rectified || true) (sendback || r.sendback)
    else
      rectifyGo rest b (rectified || false) (sendback || false)

/-- The `prova` rectifier's `req` byte pattern, verbatim from
`initRectifiers` in ldap-proxy.go. -/
def provaReq : List Nat :=
  [0x63, 0x33, 0x04, 0x00, 0x0a, 0x01, 0x00, 0x0a, 0x01, 0x03, 0x02, 0x01, 0x00, 0x02, 0x01, 0x00,
   0x01, 0x01, 0x00, 0x87, 0x0b, 0x6f, 0x62, 0x6a, 0x65, 0x63, 0x74, 0x43, 0x6c, 0x61, 0x73, 0x73,
   0x30, 0x13, 0x04, 0x11, 0x73, 0x75, 0x62, 0x73, 0x63, 0x68, 0x65, 0x6d, 0x61, 0x53, 0x75, 0x62,
   0x65, 0x6e, 0x74, 0x72, 0x79]

/-- The `prova` rectifier's `res` byte replacement, verbatim from
`initRectifiers` in ldap-proxy.go. -/
def provaRes : List Nat :=
  [0x64, 0x26, 0x04, 0x00, 0x30, 0x22, 0x30, 0x20, 0x04, 0x11, 0x73, 0x75, 0x62, 0x73, 0x63, 0x68,
   0x65, 0x6d, 0x61, 0x53, 0x75, 0x62, 0x65, 0x6e, 0x74, 0x72, 0x79, 0x31, 0x0b, 0x04, 0x09, 0x63,
   0x6e, 0x3d, 0x73, 0x63, 0x68, 0x65, 0x6d, 0x61]

/-- `initRectifiers` from ldap-proxy.go: the rule table the program
actually builds — a single rule (`prova`) with `sendback = true`. -/
def initRectifiers : List rectifier :=
  [{ req := provaReq, res := provaRes, sendback := true, desc := "prova" }]

/-- `rectifyData` from ldap-proxy.go: run the rule loop over the table
returned by `initRectifiers` with both flags starting false. -/
def rectifyData (b : List Nat) : List Nat × Bool × Bool :=
  rectifyGo initRectifiers b false false

/-- Modelled from the spec: §4.2's rectification algorithm stated in the
spec's own words — starting with the input buffer, for each rule in table
order, if the buffer contains the rule's pattern set the buffer to the
replacement, mark `rectified := true` and OR the rule's reply-to-sender
flag into the accumulator; a non-matching rule leaves everything
unaffected. -/
def rectifySpecGo : List rectifier → List Nat → Bool → Bool → List Nat × Bool × Bool
  | [], b, rectified, replyToSender => (b, rectified, replyToSender)
  | r :: rest, b, rectified, replyToSender =>
    if bytesContains b r.req then
      rectifySpecGo rest r.res true (replyToSender || r.sendback)
    else
      rectifySpecGo rest b rectified replyToSender

theorem rectifyGo_eq_spec (rules : List rectifier) (b : List Nat) (r s : Bool) :
    rectifyGo rules b r s = rectifySpecGo rules b r s := by
  induction rules generalizing b r s with
  | nil => rfl
  | cons ru rest ih =>
    simp only [rectifyGo, rectifySpecGo, Bool.or_true, Bool.or_false]
    split <;> exact ih ..

theorem rectifyGo_no_match (rules : List rectifier) (b : List Nat) (r s : Bool)
    (h : ∀ ru ∈ rules, bytesContains b ru.req = false) :
    rectifyGo rules b r s = (b, r, s) := by
  induction rules with
  | nil => rfl
  | cons ru rest ih =>
    have h1 : bytesContains b ru.req = false := h ru (List.mem_cons_self ru rest)
    simp only [rectifyGo, h1, Bool.false_eq_true, if_false, Bool.or_false]
    exact ih fun x hx => h x (List.mem_cons_of_mem _ hx)

/-! ## BER framing model

Modelled from the spec: the program delegates wire framing to the
`go-asn1-ber` package, whose source is not part of this repository; §3 and
§4.1 of the design document describe its behaviour as used here (single
tag octet, definite BER lengths, `raw` = exact bytes as received, children
retained one level deep as opaque byte ranges). -/

/-- Big-endian interpretation of a byte list. -/
def beNat (bs : List Nat) : Nat := bs.foldl (fun acc b => acc * 256 + b) 0

/-- Minimal big-endian byte representation of `n` (at least one byte),
fuelled for structural recursion; fuel `n + 1` always suffices. -/
def natBytesAux : Nat → Nat → List Nat
  | 0, _ => []
  | fuel + 1, n => if n < 256 then [n] else natBytesAux fuel (n / 256) ++ [n % 256]

/-- Minimal big-endian byte representation of `n`. -/
def natBytes (n : Nat) : List Nat := natBytesAux (n + 1) n

/-- Modelled from the spec: BER definite-length serialization — a length
below 0x80 is one literal byte, otherwise a long-form prefix byte
`0x80 + count` followed by the minimal big-endian length octets. -/
def encodeLength (n : Nat) : List Nat :=
  if n < 128 then [n] else (128 + (natBytes n).length) :: natBytes n

/-- Byte count of the two's-complement encoding of an `int64`: 1 byte,
plus one per arithmetic 8-bit shift needed to bring the value into
[-128, 127] (fuelled; 9 covers the whole int64 range). -/
def int64LengthAux : Nat → Int → Nat
  | 0, _ => 1
  | fuel + 1, i =>
    if 127 < i then 1 + int64LengthAux fuel (Int.fdiv i 256)
    else if i < -128 then 1 + int64LengthAux fuel (Int.fdiv i 256)
    else 1

/-- Byte count of the minimal two's-complement encoding of `i`. -/
def int64Length (i : Int) : Nat := int64LengthAux 9 i

/-- Minimal big-endian two's-complement encoding of an integer, as the
`go-asn1-ber` integer encoder produces it. -/
def encodeInteger (i : Int) : List Nat :=
  (List.range (int64Length i)).reverse.map fun j => ((Int.fdiv i ((256 : Int) ^ j)) % 256).toNat

/-- Big-endian two's-complement decoding of at most eight value octets
(more than eight octets is a decode failure), sign-extended from the top
bit of the first octet — the `go-asn1-ber` int64 parser. -/
def parseInt64 (bs : List Nat) : Option Int :=
  if 8 < bs.length then none
  else if bs ≠ [] ∧ 128 ≤ bs.headD 0 then
    some ((beNat bs : Int) - (256 : Int) ^ bs.length)
  else
    some (beNat bs : Int)

/-- Serialized form of `ber.NewInteger(ClassUniversal, TypePrimitive,
TagInteger, i, ...)`: identifier octet 0x02, minimal length octets,
minimal two's-complement value octets. -/
def newIntegerBytes (i : Int) : List Nat :=
  2 :: encodeLength (encodeInteger i).length ++ encodeInteger i

/-- One nested BER record, kept one level deep: identifier octet, the
length octets exactly as received, and the content octets. -/
structure Record where
  ident : Nat
  lenBytes : List Nat
  content : List Nat
deriving DecidableEq

instance : Inhabited Record := ⟨⟨0, [], []⟩⟩

/-- The record's raw bytes: identifier octet, length octets, content. -/
def Record.raw (r : Record) : List Nat := r.ident :: r.lenBytes ++ r.content

/-- The tag number: low five bits of the identifier octet. -/
def Record.tag (r : Record) : Nat := r.ident % 32

/-- The parsed `Value` of the record as the library exposes it for
universal primitive INTEGER records (identifier octet exactly 0x02);
any other record has no int64 value. -/
def Record.value (r : Record) : Option Int :=
  if r.ident = 2 then parseInt64 r.content else none

/-- Modelled from the spec: read BER definite-length octets — a first
byte below 0x80 is the literal length; otherwise its low seven bits give
the count of following big-endian length octets.  Returns the consumed
length octets, the decoded length and the remaining bytes. -/
def readBerLength : List Nat → Option (List Nat × Nat × List Nat)
  | [] => none
  | b :: rest =>
    if b < 128 then some ([b], b, rest)
    else
      if rest.length < b - 128 then none
      else some (b :: rest.take (b - 128), beNat (rest.take (b - 128)), rest.drop (b - 128))

/-- Modelled from the spec: split a constructed record's content into its
ordered list of one-level child records (tag octet, length octets,
content each), requiring the content to be consumed exactly.  Fuelled;
each child consumes at least one byte, so fuel `bs.length` suffices. -/
def parseRecords : Nat → List Nat → Option (List Record)
  | _, [] => some []
  | 0, _ :: _ => none
  | fuel + 1, t :: rest =>
    match readBerLength rest with
    | none => none
    | some (lb, len, rest') =>
      if rest'.length < len then none
      else
        match parseRecords fuel (rest'.drop len) with
        | none => none
        | some recs => some (⟨t, lb, rest'.take len⟩ :: recs)

/-- Modelled from the spec: `ber.DecodePacket` on a byte string — parse
one record from the front, ignoring any trailing bytes. -/
def decodeRecord : List Nat → Option Record
  | [] => none
  | t :: rest =>
    match readBerLength rest with
    | none => none
    | some (lb, len, rest') =>
      if rest'.length < len then none else some ⟨t, lb, rest'.take len⟩

/-- One decoded protocol frame: the outer envelope record plus the
one-level parse of its content (empty for a primitive envelope). -/
structure Frame where
  env : Record
  children : List Record
deriving DecidableEq

/-- The frame's raw bytes, exactly as received. -/
def Frame.raw (f : Frame) : List Nat := f.env.raw

/-- Bit 0x20 of the identifier octet: constructed (children are parsed)
versus primitive (no children). -/
def constructedBit (ident : Nat) : Bool := ident / 32 % 2 = 1

/-- Modelled from the spec: `ber.ReadPacket` — read the outer tag octet,
the definite-length octets, then exactly that many content bytes; parse
the content into one-level children when the envelope is constructed.
Returns the frame and the unconsumed remainder of the stream. -/
def readFrame : List Nat → Option (Frame × List Nat)
  | [] => none
  | t :: rest =>
    match readBerLength rest with
    | none => none
    | some (lb, len, rest') =>
      if rest'.length < len then none
      else
        match (if constructedBit t then parseRecords (rest'.take len).length (rest'.take len) else some []) with
        | none => none
        | some children => some (⟨⟨t, lb, rest'.take len⟩, children⟩, rest'.drop len)

/-! ## The Pump: per-frame processing of `handleRequest` -/

/-- Where one iteration of `handleRequest` writes its outgoing bytes:
`toDest` is the pump's configured destination `rconn`, `toSource` is the
originating connection `conn`. -/
inductive Route
  | toDest
  | toSource
deriving DecidableEq

/-- The routing decision of `handleRequest` (line 223 of ldap-proxy.go):
write back to the source iff `rectified && sendback`. -/
def routeFor (rectified sendback : Bool) : Route :=
  if rectified && sendback then Route.toSource else Route.toDest

/-- Result of processing one frame inside the `handleRequest` loop:
skip it and continue, hit a runtime panic (recovered by the deferred
handler, ending the session), or write `out` to `route`. -/
inductive FrameStep
  | skip
  | panicked
  | send (out : List Nat) (route : Route)
deriving DecidableEq

/-- The rectification loop of `handleRequest` (lines 204-212): for each
operation-body child in order, run `rectifyData` on its raw bytes,
OR-accumulate the two flags, and append `ber.DecodePacket` of the
(possibly replaced) bytes to the rebuilt envelope's content; an
undecodable replacement is a runtime panic (`none`). -/
def rectifyChildren : List Record → List Nat → Bool → Bool → Option (List Nat × Bool × Bool)
  | [], acc, rectified, sendback => some (acc, rectified, sendback)
  | c :: rest, acc, rectified, sendback =>
    match rectifyData c.raw with
    | (d, r, s) =>
      match decodeRecord d with
      | none => none
      | some rec => rectifyChildren rest (acc ++ rec.raw) (rectified || r) (sendback || s)

/-- The rectification-enabled branch of `handleRequest` (lines 194-214):
rebuild a SEQUENCE envelope (identifier octet 0x30) whose content starts
with the re-encoded original `messageId` followed by the rectified
children, and serialize it. -/
def rectifyFrame (messageId : Int) (body : List Record) : Option (List Nat × Bool × Bool) :=
  match rectifyChildren body (newIntegerBytes messageId) false false with
  | none => none
  | some (content, rectified, sendback) =>
    some (48 :: encodeLength content.length ++ content, rectified, sendback)

/-- One iteration of the `handleRequest` loop after a frame has been
read (lines 170-229): skip frames with no children or whose first child's
tag is not the INTEGER tag; extract the messageId (a failed `int64` type
assertion panics); then either rebuild-and-rectify (`useRectifier`) or
copy the raw frame, and route by `rectified && sendback`. -/
def handleFrame (useRectifier : Bool) (f : Frame) : FrameStep :=
  match f.children with
  | [] => FrameStep.skip
  | c0 :: body =>
    if c0.tag ≠ 2 then FrameStep.skip
    else
      match c0.value with
      | none => FrameStep.panicked
      | some m =>
        if useRectifier then
          match rectifyFrame m body with
          | none => FrameStep.panicked
          | some (out, r, s) => FrameStep.send out (routeFor r s)
        else FrameStep.send f.raw (routeFor false false)

/-- Why a pump loop stopped: a read failure / end of stream, or a
recovered runtime panic while processing a frame. -/
inductive PumpEnd
  | readError
  | panicked
deriving DecidableEq

/-- Observable behaviour of one pump: the ordered writes it performed
(bytes and route) and how it ended. -/
structure PumpTrace where
  writes : List (List Nat × Route)
  ending : PumpEnd
deriving DecidableEq

/-- The `handleRequest` read-process-write loop over an input byte
stream (writes are assumed to succeed; fuel bounds the number of
iterations and `input.length + 1` always suffices since every frame
consumes at least one byte). -/
def pump (useRectifier : Bool) : Nat → List Nat → PumpTrace
  | 0, _ => ⟨[], PumpEnd.readError⟩
  | fuel + 1, input =>
    match readFrame input with
    | none => ⟨[], PumpEnd.readError⟩
    | some (f, rest) =>
      match handleFrame useRectifier f with
      | FrameStep.skip => pump useRectifier fuel rest
      | FrameStep.panicked => ⟨[], PumpEnd.panicked⟩
      | FrameStep.send out route =>
        let t := pump useRectifier fuel rest
        ⟨(out, route) :: t.writes, t.ending⟩

/-- Outcome of one whole `handleRequest` call, including its deferred
block (lines 129-140): `recover()` absorbs any panic raised while
processing frames, then both connections are closed unconditionally. -/
structure SessionResult where
  writes : List (List Nat × Route)
  recoveredPanic : Bool
  connClosed : Bool
  rconnClosed : Bool
  panicEscaped : Bool
deriving DecidableEq

/-- A full `handleRequest` run: execute the pump loop, then the deferred
handler — recover a panic if one was raised, close `conn`, close
`rconn`.  No panic ever escapes past the deferred `recover()`. -/
def handleRequestRun (useRectifier : Bool) (fuel : Nat) (input : List Nat) : SessionResult :=
  let t := pump useRectifier fuel input
  { writes := t.writes
    recoveredPanic := match t.ending with | PumpEnd.panicked => true | PumpEnd.readError => false
    connClosed := true
    rconnClosed := true
    panicEscaped := false }

/-! ## Session setup: `handleConn` -/

/-- A Go `net.Conn` interface value inside `handleConn`: either a live
connection or the nil interface (what `net.Dial` returns alongside a
non-nil error). -/
inductive GoConn
  | nilConn
  | live (id : Nat)
deriving DecidableEq

/-- A Go runtime panic relevant to this program. -/
inductive GoPanic
  | nilInterfaceCall
deriving DecidableEq

/-- Calling `Close()` on a `net.Conn` value: on a live connection it
closes it (returning its id), on the nil interface it is a nil-pointer
method call, which panics. -/
def GoConn.close : GoConn → Except GoPanic Nat
  | GoConn.nilConn => Except.error GoPanic.nilInterfaceCall
  | GoConn.live i => Except.ok i

/-- `handleConn` from ldap-proxy.go (lines 107-126), up to the point
where the two pumps are spawned.  `dialResult` is what `net.Dial`
produced: `some id` on success, `none` on error (in which case the local
`rconn` variable holds the nil interface).  The result is either a panic
paired with the connection ids closed before it, or the ids closed by a
normal return. -/
def handleConn (_client : GoConn) (dialResult : Option Nat) :
    Except (GoPanic × List Nat) (List Nat) :=
  match dialResult with
  | none =>
    match GoConn.close GoConn.nilConn with
    | Except.error p => Except.error (p, [])
    | Except.ok i => Except.ok [i]
  | some _ => Except.ok []

/-- Fate of the whole process after a goroutine body finishes:
`handleConn` runs via `go handleConn(...)` with no deferred `recover()`,
so a panic escaping it terminates the entire program. -/
inductive ProcessFate
  | running
  | crashed
deriving DecidableEq

/-- Lift a goroutine body's outcome to the process: an unrecovered panic
in any goroutine crashes the process. -/
def afterHandleConn (r : Except (GoPanic × List Nat) (List Nat)) : ProcessFate :=
  match r with
  | Except.error _ => ProcessFate.crashed
  | Except.ok _ => ProcessFate.running

/-! ## Parsing soundness lemmas -/

theorem readBerLength_consume {bs lb rest' : List Nat} {len : Nat}
    (h : readBerLength bs = some (lb, len, rest')) : bs = lb ++ rest' := by
  cases bs with
  | nil => simp [readBerLength] at h
  | cons b rest =>
    simp only [readBerLength] at h
    split at h
    · simp only [Option.some.injEq, Prod.mk.injEq] at h
      obtain ⟨rfl, rfl, rfl⟩ := h
      rfl
    · split at h
      · exact absurd h (by simp)
      · simp only [Option.some.injEq, Prod.mk.injEq] at h
        obtain ⟨rfl, rfl, rfl⟩ := h
        simp [List.take_append_drop]

theorem readBerLength_replay {bs lb rest' : List Nat} {len : Nat}
    (h : readBerLength bs = some (lb, len, rest')) (tail : List Nat) :
    readBerLength (lb ++ tail) = some (lb, len, tail) := by
  cases bs with
  | nil => simp [readBerLength] at h
  | cons b rest =>
    simp only [readBerLength] at h
    split at h
    case isTrue hb =>
      simp only [Option.some.injEq, Prod.mk.injEq] at h
      obtain ⟨rfl, rfl, rfl⟩ := h
      simp [readBerLength, hb]
    case isFalse hb =>
      split at h
      · exact absurd h (by simp)
      case isFalse hlen =>
        simp only [Option.some.injEq, Prod.mk.injEq] at h
        obtain ⟨rfl, rfl, rfl⟩ := h
        have hlen' : (rest.take (b - 128)).length = b - 128 := by
          rw [List.length_take]; omega
        have h1 : (rest.take (b - 128) ++ tail).take (b - 128) = rest.take (b - 128) :=
          List.take_left' hlen'
        have h2 : (rest.take (b - 128) ++ tail).drop (b - 128) = tail :=
          List.drop_left' hlen'
        simp only [List.cons_append, readBerLength]
        rw [if_neg hb, if_neg (by rw [List.length_append, hlen']; omega), h1, h2]

theorem parseRecords_sound : ∀ (fuel : Nat) (bs : List Nat) (recs : List Record),
    parseRecords fuel bs = some recs →
    (recs.map Record.raw).flatten = bs ∧ ∀ r ∈ recs, decodeRecord r.raw = some r := by
  intro fuel
  induction fuel with
  | zero =>
    intro bs recs h
    cases bs with
    | nil =>
      simp only [parseRecords, Option.some.injEq] at h
      subst h
      exact ⟨rfl, by simp⟩
    | cons b rest => simp [parseRecords] at h
  | succ fuel ih =>
    intro bs recs h
    cases bs with
    | nil =>
      simp only [parseRecords, Option.some.injEq] at h
      subst h
      exact ⟨rfl, by simp⟩
    | cons t rest =>
      simp only [parseRecords] at h
      split at h
      · exact absurd h (by simp)
      next lb len rest' hL =>
        split at h
        · exact absurd h (by simp)
        next hlen =>
          split at h
          · exact absurd h (by simp)
          next recs0 hP =>
            simp only [Option.some.injEq] at h
            subst h
            obtain ⟨hflat, hdec⟩ := ih (rest'.drop len) recs0 hP
            have hlen' : (rest'.take len).length = len := by
              rw [List.length_take]; omega
            constructor
            · simp only [List.map_cons, List.flatten_cons, Record.raw, hflat]
              rw [readBerLength_consume hL]
              simp [List.append_assoc, List.take_append_drop]
            · intro r hr
              rcases List.mem_cons.mp hr with rfl | hmem
              · have hrep := readBerLength_replay hL (rest'.take len)
                have hnl : ¬ (rest'.take len).length < len := by omega
                show decodeRecord (t :: (lb ++ rest'.take len)) = _
                simp only [decodeRecord]
                rw [hrep]
                simp [hnl, List.take_take]
                omega
              · exact hdec r hmem

theorem readFrame_sound {input : List Nat} {f : Frame} {rest : List Nat}
    (h : readFrame input = some (f, rest)) :
    input = f.raw ++ rest ∧
    (constructedBit f.env.ident = true →
      parseRecords f.env.content.length f.env.content = some f.children) ∧
    (constructedBit f.env.ident = false → f.children = []) := by
  cases input with
  | nil => simp [readFrame] at h
  | cons t r0 =>
    simp only [readFrame] at h
    split at h
    · exact absurd h (by simp)
    next lb len rest' hL =>
      split at h
      · exact absurd h (by simp)
      next hlen =>
        split at h
        · exact absurd h (by simp)
        next children hC =>
          simp only [Option.some.injEq, Prod.mk.injEq] at h
          obtain ⟨rfl, rfl⟩ := h
          refine ⟨?_, ?_, ?_⟩
          · rw [readBerLength_consume hL]
            simp [Frame.raw, Record.raw, List.append_assoc, List.take_append_drop]
          · intro hcb; rw [hcb] at hC; simpa using hC
          · intro hcb; rw [hcb] at hC; simpa using hC

/-! ## Rectification-loop lemmas -/

theorem rectifyData_flags_eq (b : List Nat) : (rectifyData b).2.2 = (rectifyData b).2.1 := by
  simp only [rectifyData, initRectifiers, rectifyGo]
  split <;> rfl

theorem rectifyChildren_char : ∀ (body : List Record) (acc : List Nat) (r0 s0 : Bool),
    (∀ c ∈ body, (decodeRecord (rectifyData c.raw).1).isSome = true) →
    rectifyChildren body acc r0 s0 =
      some (acc ++ (body.map fun c =>
              ((decodeRecord (rectifyData c.raw).1).getD default).raw).flatten,
            r0 || body.any fun c => (rectifyData c.raw).2.1,
            s0 || body.any fun c => (rectifyData c.raw).2.2) := by
  intro body
  induction body with
  | nil => intro acc r0 s0 _; simp [rectifyChildren]
  | cons c rest ih =>
    intro acc r0 s0 h
    have hc := h c (List.mem_cons_self c rest)
    obtain ⟨rec, hrec⟩ := Option.isSome_iff_exists.mp hc
    simp only [rectifyChildren]
    rcases hd : rectifyData c.raw with ⟨d, rs⟩
    rcases rs with ⟨r, s⟩
    rw [hd] at hrec
    simp only at hrec
    rw [hrec]
    simp only
    rw [ih (acc ++ rec.raw) (r0 || r) (s0 || s)
      (fun x hx => h x (List.mem_cons_of_mem _ hx))]
    simp [hd, hrec, List.append_assoc, Bool.or_assoc]

theorem rectifyChildren_flags : ∀ (body : List Record) (acc : List Nat) (r0 s0 : Bool)
    (out : List Nat) (r s : Bool), s0 = r0 →
    rectifyChildren body acc r0 s0 = some (out, r, s) → s = r := by
  intro body
  induction body with
  | nil =>
    intro acc r0 s0 out r s h0 h
    simp only [rectifyChildren, Option.some.injEq, Prod.mk.injEq] at h
    obtain ⟨-, rfl, rfl⟩ := h
    exact h0
  | cons c rest ih =>
    intro acc r0 s0 out r s h0 h
    have hfe := rectifyData_flags_eq c.raw
    simp only [rectifyChildren] at h
    rcases hd : rectifyData c.raw with ⟨d, rs⟩
    rcases rs with ⟨r1, s1⟩
    rw [hd] at h hfe
    simp only at h hfe
    rcases hdec : decodeRecord d with - | rec
    · rw [hdec] at h; exact absurd h (by simp)
    · rw [hdec] at h
      simp only at h
      exact ih (acc ++ rec.raw) (r0 || r1) (s0 || s1) out r s (by rw [h0, hfe]) h

/-! ## Claim theorems -/

/-- Claim C1: the claim says a failed upstream dial closes the client
connection, abandons the session and leaves the process accepting; the
code instead calls `Close()` on the nil upstream connection returned by
the failed `net.Dial`, a nil-interface method call that panics inside a
goroutine with no `recover`, crashing the whole process — and the client
connection is never closed (the closed-connection list is empty). -/
theorem claim_C1_dial_failure_crashes :
    handleConn (GoConn.live 1) none = Except.error (GoPanic.nilInterfaceCall, []) ∧
    afterHandleConn (handleConn (GoConn.live 1) none) = ProcessFate.crashed :=
  ⟨rfl, rfl⟩

/-- Claim C2: the rule loop of `rectifyData` evaluates rules in table
order, sequentially, against the current buffer, exactly as the spec's
§4.2 algorithm states (the two accumulations coincide for every rule
table and input), and on the spec's chaining example (`A→B` then `B→C`
on input `xAy`) it returns `C` with both flags true. -/
theorem claim_C2_rule_order :
    (∀ (rules : List rectifier) (b : List Nat),
      rectifyGo rules b false false = rectifySpecGo rules b false false) ∧
    rectifyGo
      [{ req := [65], res := [66], sendback := false, desc := "A to B" },
       { req := [66], res := [67], sendback := true, desc := "B to C" }]
      [120, 65, 121] false false = ([67], true, true) :=
  ⟨fun rules b => rectifyGo_eq_spec rules b false false, by decide⟩

/-- Claim C3: per-iteration routing of the rectification-enabled Pump —
whenever the per-frame flags are `rectified && replyToSender` the
outgoing bytes go back to the source connection, and in every other
case to the configured destination. -/
theorem claim_C3_routing : ∀ (f : Frame) (c0 : Record) (body : List Record) (m : Int)
    (out : List Nat) (r s : Bool),
    f.children = c0 :: body → c0.tag = 2 → c0.value = some m →
    rectifyFrame m body = some (out, r, s) →
    handleFrame true f =
      FrameStep.send out (if r && s then Route.toSource else Route.toDest) := by
  intro f c0 body m out r s hc ht hv hr
  simp [handleFrame, hc, ht, hv, hr, routeFor]

/-- Witness for C3: a concrete frame whose single operation-body child
matches the `prova` rule is routed back to the source with the rebuilt
reply bytes. -/
theorem claim_C3_routing_witness :
    rectifyFrame 5 [⟨99, [51], provaReq.drop 2⟩] =
      some ([48, 43, 2, 1, 5] ++ provaRes, true, true) ∧
    handleFrame true ⟨⟨48, [56], [2, 1, 5] ++ provaReq⟩,
        [⟨2, [1], [5]⟩, ⟨99, [51], provaReq.drop 2⟩]⟩ =
      FrameStep.send ([48, 43, 2, 1, 5] ++ provaRes) Route.toSource :=
  ⟨by decide,
   claim_C3_routing ⟨⟨48, [56], [2, 1, 5] ++ provaReq⟩,
       [⟨2, [1], [5]⟩, ⟨99, [51], provaReq.drop 2⟩]⟩
     ⟨2, [1], [5]⟩ [⟨99, [51], provaReq.drop 2⟩] 5
     ([48, 43, 2, 1, 5] ++ provaRes) true true rfl (by decide) (by decide) (by decide)⟩

/-- Claim C5: with rectification disabled, every frame that is forwarded
at all is forwarded with outgoing bytes exactly the frame's raw received
bytes, always to the configured destination, never back to the source
(the rule table is not consulted at all on this path). -/
theorem claim_C5_passthrough : ∀ (f : Frame) (out : List Nat) (route : Route),
    handleFrame false f = FrameStep.send out route →
    out = f.raw ∧ route = Route.toDest := by
  intro f out route h
  simp only [handleFrame] at h
  split at h
  · exact absurd h (by simp)
  next c0 body =>
    split at h
    · exact absurd h (by simp)
    · split at h
      · exact absurd h (by simp)
      next m =>
        have h' : FrameStep.send f.raw (routeFor false false) = FrameStep.send out route := by
          simpa using h
        injection h' with h1 h2
        exact ⟨h1.symm, by rw [← h2]; rfl⟩

/-- Witness for C5: a concrete frame passed through the disabled
direction comes out byte-identical and destined for the write side. -/
theorem claim_C5_passthrough_witness :
    handleFrame false ⟨⟨48, [3], [2, 1, 5]⟩, [⟨2, [1], [5]⟩]⟩ =
      FrameStep.send [48, 3, 2, 1, 5] Route.toDest ∧
    (([48, 3, 2, 1, 5] : List Nat) = Frame.raw ⟨⟨48, [3], [2, 1, 5]⟩, [⟨2, [1], [5]⟩]⟩ ∧
      Route.toDest = Route.toDest) :=
  ⟨by decide,
   claim_C5_passthrough ⟨⟨48, [3], [2, 1, 5]⟩, [⟨2, [1], [5]⟩]⟩ [48, 3, 2, 1, 5]
     Route.toDest (by decide)⟩

/-- Claim C7: if no rule's pattern occurs in the input, the rule loop
returns the input unchanged with both flags false. -/
theorem claim_C7_no_match : ∀ (rules : List rectifier) (b : List Nat),
    (∀ ru ∈ rules, bytesContains b ru.req = false) →
    rectifyGo rules b false false = (b, false, false) :=
  fun rules b h => rectifyGo_no_match rules b false false h

/-- Witness for C7: the program's own rule table leaves a small
non-matching body untouched. -/
theorem claim_C7_no_match_witness :
    (∀ ru ∈ initRectifiers, bytesContains [48, 0] ru.req = false) ∧
    rectifyGo initRectifiers [48, 0] false false = ([48, 0], false, false) :=
  ⟨by decide, claim_C7_no_match initRectifiers [48, 0] (by decide)⟩

/-- Claim C9: `handleRequest` never lets a panic escape — its deferred
block recovers any fault raised while processing a frame and closes both
of the session's connections unconditionally, so a per-frame fault ends
only this session and never the process. -/
theorem claim_C9_fault_contained : ∀ (u : Bool) (fuel : Nat) (input : List Nat),
    (handleRequestRun u fuel input).panicEscaped = false ∧
    (handleRequestRun u fuel input).connClosed = true ∧
    (handleRequestRun u fuel input).rconnClosed = true ∧
    ((pump u fuel input).ending = PumpEnd.panicked →
      (handleRequestRun u fuel input).recoveredPanic = true) := by
  intro u fuel input
  refine ⟨rfl, rfl, rfl, fun h => ?_⟩
  simp [handleRequestRun, h]

/-- Witness for C9: a frame whose first child has the INTEGER tag bits
but a context-specific class makes the int64 type assertion panic; the
session run records a recovered panic and no escape. -/
theorem claim_C9_fault_contained_witness :
    (pump true 1 [48, 3, 130, 1, 5]).ending = PumpEnd.panicked ∧
    (handleRequestRun true 1 [48, 3, 130, 1, 5]).recoveredPanic = true :=
  ⟨by decide, (claim_C9_fault_contained true 1 [48, 3, 130, 1, 5]).2.2.2 (by decide)⟩

/-- Claim C10: with the rule table the program actually builds (single
rule, `sendback = true`), `rectifyData` always returns `sendback` equal
to `rectified`; consequently a frame that was rectified at all is routed
back to its sender — a rectified frame is never forwarded onward to the
configured destination. -/
theorem claim_C10_sendback_eq_rectified :
    (∀ b : List Nat, (rectifyData b).2.2 = (rectifyData b).2.1) ∧
    (∀ (m : Int) (body : List Record) (out : List Nat) (r s : Bool),
      rectifyFrame m body = some (out, r, s) →
      s = r ∧ routeFor r s = (if r then Route.toSource else Route.toDest)) := by
  constructor
  · exact rectifyData_flags_eq
  · intro m body out r s h
    simp only [rectifyFrame] at h
    rcases hrc : rectifyChildren body (newIntegerBytes m) false false with - | x
    · rw [hrc] at h; exact absurd h (by simp)
    · obtain ⟨content, rf, sf⟩ := x
      rw [hrc] at h
      simp only [Option.some.injEq, Prod.mk.injEq] at h
      obtain ⟨-, rfl, rfl⟩ := h
      have hsr := rectifyChildren_flags body (newIntegerBytes m) false false content rf sf rfl hrc
      refine ⟨hsr, ?_⟩
      rw [hsr]
      cases rf <;> rfl

/-- Witness for C10: the `prova` rule fires on a concrete body; both
flags come back true and the routing expression sends the frame to the
source. -/
theorem claim_C10_sendback_eq_rectified_witness :
    rectifyFrame 5 [⟨99, [51], provaReq.drop 2⟩] =
      some ([48, 43, 2, 1, 5] ++ provaRes, true, true) ∧
    (true = true ∧ routeFor true true = (if true then Route.toSource else Route.toDest)) :=
  ⟨by decide,
   claim_C10_sendback_eq_rectified.2 5 [⟨99, [51], provaReq.drop 2⟩]
     ([48, 43, 2, 1, 5] ++ provaRes) true true (by decide)⟩

/-- Claim C6: with rectification enabled, the Pump rebuilds a SEQUENCE
envelope around the re-encoded original messageId, runs the rectification
engine on each operation-body child independently, appends the (possibly
replaced) children in original order, and ORs the per-child flags into
the frame-level `rectified`/`sendback`. -/
theorem claim_C6_rebuild : ∀ (f : Frame) (c0 : Record) (body : List Record) (m : Int),
    f.children = c0 :: body → c0.tag = 2 → c0.value = some m →
    (∀ c ∈ body, (decodeRecord (rectifyData c.raw).1).isSome = true) →
    handleFrame true f =
      FrameStep.send
        (48 :: encodeLength (newIntegerBytes m ++ (body.map fun c =>
            ((decodeRecord (rectifyData c.raw).1).getD default).raw).flatten).length ++
          (newIntegerBytes m ++ (body.map fun c =>
            ((decodeRecord (rectifyData c.raw).1).getD default).raw).flatten))
        (routeFor (body.any fun c => (rectifyData c.raw).2.1)
          (body.any fun c => (rectifyData c.raw).2.2)) := by
  intro f c0 body m hc ht hv h
  have hchar := rectifyChildren_char body (newIntegerBytes m) false false h
  simp only [Bool.false_or] at hchar
  simp [handleFrame, hc, ht, hv, rectifyFrame, hchar]

/-- Witness for C6: a frame with two body children — one matching the
`prova` rule, one not — yields the replacement followed by the untouched
child, in order, with both OR-accumulated flags true. -/
theorem claim_C6_rebuild_witness :
    (∀ c ∈ [(⟨99, [51], provaReq.drop 2⟩ : Record), ⟨4, [3], [97, 98, 99]⟩],
      (decodeRecord (rectifyData c.raw).1).isSome = true) ∧
    handleFrame true ⟨⟨48, [61], [2, 1, 5] ++ provaReq ++ [4, 3, 97, 98, 99]⟩,
        [⟨2, [1], [5]⟩, ⟨99, [51], provaReq.drop 2⟩, ⟨4, [3], [97, 98, 99]⟩]⟩ =
      FrameStep.send ([48, 48, 2, 1, 5] ++ provaRes ++ [4, 3, 97, 98, 99]) Route.toSource :=
  ⟨by decide,
   claim_C6_rebuild ⟨⟨48, [61], [2, 1, 5] ++ provaReq ++ [4, 3, 97, 98, 99]⟩,
       [⟨2, [1], [5]⟩, ⟨99, [51], provaReq.drop 2⟩, ⟨4, [3], [97, 98, 99]⟩]⟩
     ⟨2, [1], [5]⟩ [⟨99, [51], provaReq.drop 2⟩, ⟨4, [3], [97, 98, 99]⟩] 5
     rfl (by decide) (by decide) (by decide)⟩

/-- Claim C8: a frame with no operation-body children, or whose first
child does not carry the INTEGER tag, is skipped without forwarding
anything and without terminating the Pump — the loop simply continues on
the rest of the stream. -/
theorem claim_C8_skip_continue : ∀ (u : Bool) (n : Nat) (input : List Nat)
    (f : Frame) (rest : List Nat),
    readFrame input = some (f, rest) →
    (f.children = [] ∨ ∃ c0 body, f.children = c0 :: body ∧ c0.tag ≠ 2) →
    pump u (n + 1) input = pump u n rest := by
  intro u n input f rest hread hskip
  have hf : handleFrame u f = FrameStep.skip := by
    rcases hskip with h0 | ⟨c0, body, hcb, ht⟩
    · simp [handleFrame, h0]
    · simp [handleFrame, hcb, ht]
  simp [pump, hread, hf]

/-- Witness for C8: an empty SEQUENCE frame is skipped and the
well-formed frame following it on the same stream is still processed
(exactly one write happens). -/
theorem claim_C8_skip_continue_witness :
    readFrame [48, 0, 48, 3, 2, 1, 5] = some (⟨⟨48, [0], []⟩, []⟩, [48, 3, 2, 1, 5]) ∧
    pump true 2 [48, 0, 48, 3, 2, 1, 5] = pump true 1 [48, 3, 2, 1, 5] ∧
    (pump true 2 [48, 0, 48, 3, 2, 1, 5]).writes = [([48, 3, 2, 1, 5], Route.toDest)] :=
  ⟨by decide,
   claim_C8_skip_continue true 1 [48, 0, 48, 3, 2, 1, 5] ⟨⟨48, [0], []⟩, []⟩
     [48, 3, 2, 1, 5] (by decide) (Or.inl rfl),
   by decide⟩

/-- Claim C4 (amended): decoding then re-serializing without any rule
matching is byte-identical to the original input provided the message is
in the serializer's canonical form — outer envelope a SEQUENCE (0x30)
with minimal-form length octets and first child a canonically encoded
INTEGER; the rebuilt envelope on the enabled direction re-encodes the
header and identifier, so the restriction is forced (see the
counterexample for a valid BER message with redundant length octets). -/
theorem claim_C4_roundtrip_canonical : ∀ (input : List Nat) (f : Frame) (c0 : Record)
    (cs : List Record) (v : Int),
    readFrame input = some (f, []) →
    f.env.ident = 48 →
    f.env.lenBytes = encodeLength f.env.content.length →
    f.children = c0 :: cs →
    c0.ident = 2 →
    c0.lenBytes = encodeLength c0.content.length →
    parseInt64 c0.content = some v →
    encodeInteger v = c0.content →
    (∀ c ∈ cs, ∀ ru ∈ initRectifiers, bytesContains c.raw ru.req = false) →
    handleFrame true f = FrameStep.send input Route.toDest ∧
    handleFrame false f = FrameStep.send input Route.toDest := by
  intro input f c0 cs v hread hid hlb hch hc0id hc0lb hc0val hc0enc hnom
  obtain ⟨hin, hcons, -⟩ := readFrame_sound hread
  rw [List.append_nil] at hin
  have hcb : constructedBit f.env.ident = true := by rw [hid]; rfl
  obtain ⟨hflat, hdec⟩ := parseRecords_sound _ _ _ (hcons hcb)
  have hrect : ∀ c ∈ cs, rectifyData c.raw = (c.raw, false, false) := fun c hcm =>
    rectifyGo_no_match initRectifiers c.raw false false (hnom c hcm)
  have hdec' : ∀ c ∈ cs, decodeRecord c.raw = some c := fun c hcm =>
    hdec c (by rw [hch]; exact List.mem_cons_of_mem _ hcm)
  have hiso : ∀ c ∈ cs, (decodeRecord (rectifyData c.raw).1).isSome = true := by
    intro c hcm
    rw [hrect c hcm]
    simp [hdec' c hcm]
  have hchar := rectifyChildren_char cs (newIntegerBytes v) false false hiso
  simp only [Bool.false_or] at hchar
  have hmap : (cs.map fun c => ((decodeRecord (rectifyData c.raw).1).getD default).raw)
      = cs.map Record.raw := by
    apply List.map_congr_left
    intro c hcm
    rw [hrect c hcm]
    simp [hdec' c hcm]
  have hany1 : (cs.any fun c => (rectifyData c.raw).2.1) = false := by
    rw [List.any_eq_false]
    intro c hcm
    rw [hrect c hcm]
    simp
  have hany2 : (cs.any fun c => (rectifyData c.raw).2.2) = false := by
    rw [List.any_eq_false]
    intro c hcm
    rw [hrect c hcm]
    simp
  rw [hmap, hany1, hany2] at hchar
  have hnim : newIntegerBytes v = c0.raw := by
    simp only [newIntegerBytes, Record.raw]
    rw [hc0enc, ← hc0lb, ← hc0id]
  have hcontent : newIntegerBytes v ++ (cs.map Record.raw).flatten = f.env.content := by
    rw [hnim]
    rw [hch] at hflat
    simpa [List.map_cons, List.flatten_cons] using hflat
  have hout : 48 :: encodeLength (newIntegerBytes v ++ (cs.map Record.raw).flatten).length ++
      (newIntegerBytes v ++ (cs.map Record.raw).flatten) = input := by
    rw [hcontent, hin]
    simp only [Frame.raw, Record.raw]
    rw [hid, hlb]
  have hc0tag : c0.tag = 2 := by simp [Record.tag, hc0id]
  have hc0v : c0.value = some v := by simp [Record.value, hc0id, hc0val]
  have hrf : rectifyFrame v cs =
      some (48 :: encodeLength (newIntegerBytes v ++ (cs.map Record.raw).flatten).length ++
        (newIntegerBytes v ++ (cs.map Record.raw).flatten), false, false) := by
    simp [rectifyFrame, hchar]
  constructor
  · have hstep : handleFrame true f = FrameStep.send
        (48 :: encodeLength (newIntegerBytes v ++ (cs.map Record.raw).flatten).length ++
          (newIntegerBytes v ++ (cs.map Record.raw).flatten)) (routeFor false false) := by
      simp [handleFrame, hch, hc0tag, hc0v, hrf]
    rw [hstep, hout]
    rfl
  · have hstep : handleFrame false f = FrameStep.send f.raw (routeFor false false) := by
      simp [handleFrame, hch, hc0tag, hc0v]
    rw [hstep, ← hin]
    rfl

/-- Counterexample for C4 as stated: a valid BER message whose outer
length octets use the redundant long form (0x81 0x03) decodes fine, no
rule matches, yet the rectification-enabled direction re-serializes the
envelope with minimal length octets, so the output differs from the
input. -/
theorem claim_C4_roundtrip_counterexample :
    readFrame [48, 129, 3, 2, 1, 5] =
      some (⟨⟨48, [129, 3], [2, 1, 5]⟩, [⟨2, [1], [5]⟩]⟩, []) ∧
    handleFrame true ⟨⟨48, [129, 3], [2, 1, 5]⟩, [⟨2, [1], [5]⟩]⟩ =
      FrameStep.send [48, 3, 2, 1, 5] Route.toDest ∧
    ([48, 3, 2, 1, 5] : List Nat) ≠ [48, 129, 3, 2, 1, 5] :=
  ⟨by decide, by decide, by decide⟩

/-- Witness for the amended C4: a canonical two-child frame round-trips
byte-identically on both directions. -/
theorem claim_C4_roundtrip_witness :
    readFrame [48, 8, 2, 1, 5, 4, 3, 97, 98, 99] =
      some (⟨⟨48, [8], [2, 1, 5, 4, 3, 97, 98, 99]⟩,
        [⟨2, [1], [5]⟩, ⟨4, [3], [97, 98, 99]⟩]⟩, []) ∧
    handleFrame true ⟨⟨48, [8], [2, 1, 5, 4, 3, 97, 98, 99]⟩,
        [⟨2, [1], [5]⟩, ⟨4, [3], [97, 98, 99]⟩]⟩ =
      FrameStep.send [48, 8, 2, 1, 5, 4, 3, 97, 98, 99] Route.toDest ∧
    handleFrame false ⟨⟨48, [8], [2, 1, 5, 4, 3, 97, 98, 99]⟩,
        [⟨2, [1], [5]⟩, ⟨4, [3], [97, 98, 99]⟩]⟩ =
      FrameStep.send [48, 8, 2, 1, 5, 4, 3, 97, 98, 99] Route.toDest :=
  ⟨by decide,
   (claim_C4_roundtrip_canonical [48, 8, 2, 1, 5, 4, 3, 97, 98, 99]
     ⟨⟨48, [8], [2, 1, 5, 4, 3, 97, 98, 99]⟩, [⟨2, [1], [5]⟩, ⟨4, [3], [97, 98, 99]⟩]⟩
     ⟨2, [1], [5]⟩ [⟨4, [3], [97, 98, 99]⟩] 5 (by decide) (by decide) (by decide) rfl
     (by decide) (by decide) (by decide) (by decide) (by decide)).1,
   (claim_C4_roundtrip_canonical [48, 8, 2, 1, 5, 4, 3, 97, 98, 99]
     ⟨⟨48, [8], [2, 1, 5, 4, 3, 97, 98, 99]⟩, [⟨2, [1], [5]⟩, ⟨4, [3], [97, 98, 99]⟩]⟩
     ⟨2, [1], [5]⟩ [⟨4, [3], [97, 98, 99]⟩] 5 (by decide) (by decide) (by decide) rfl
     (by decide) (by decide) (by decide) (by decide) (by decide)).2⟩
